import Mathlib

/-!
Verification of the bluesky-likes feed-transform-and-dedup pipeline
(`src/index.ts`).  The TypeScript source is shallowly embedded below:

* JavaScript values that may be `undefined` become `Option`;
* a JavaScript property access that would throw a `TypeError` on
  `undefined` becomes an `Except String` failure;
* `transformSingle`, `transformFeed`, `repliesFromAuthor`,
  `processThread`, the pagination loop of `pollFeed`, the payload
  construction of `pollFeed`, and the per-post delivery loop of
  `pollFeed` are each embedded as Lean functions keeping the source
  names where possible.
-/

namespace BlueskyLikes

/-- JavaScript string interpolation of a possibly-undefined value:
`undefined` renders as the string `undefined`. -/
def jsToString : Option String → String
  | none => "undefined"
  | some s => s

/-- JavaScript truthiness of a possibly-undefined string: `undefined`
and the empty string are falsy. -/
def strTruthy : Option String → Bool
  | none => false
  | some s => s ≠ ""

/-- Error message used where the source would raise a `TypeError` by
reading a property of `undefined`. -/
def typeErrMsg : String := "TypeError: cannot read properties of undefined"

/-- Error message used where the source would raise a `TypeError` by
destructuring `undefined` (index.ts line 104). -/
def destructureErrMsg : String := "TypeError: cannot destructure property of undefined"

/-- JavaScript `String.prototype.split` with a single-character
separator, structurally recursive over the characters. -/
def splitChars (c : Char) : List Char → List (List Char)
  | [] => [[]]
  | x :: xs =>
    if x = c then [] :: splitChars c xs
    else
      match splitChars c xs with
      | [] => [[x]]
      | h :: t => (x :: h) :: t

/-- JavaScript `s.split(c)` for a one-character separator string. -/
def jsSplit (s : String) (c : Char) : List String :=
  (splitChars c s.data).map String.mk

/-- JavaScript `Array.prototype.join` with a separator. -/
def joinSep (sep : String) : List String → String
  | [] => ""
  | [x] => x
  | x :: y :: xs => x ++ sep ++ joinSep sep (y :: xs)

/-- One image of an `images`/`media` embed view: the fields read by the
source (`fullsize`, `alt`). -/
structure EmbedImage where
  fullsize : String
  alt : String
deriving DecidableEq, Repr

/-- An external-link object as read by the source (`title`,
`description`, `thumb`). -/
structure ExternalObj where
  title : String
  description : String
  thumb : String
deriving DecidableEq, Repr

/-- Author fields read by `transformSingle` (`handle`, `displayName`). -/
structure ProfileBasic where
  handle : String
  displayName : String
deriving DecidableEq, Repr

/-- A quoted record `value` object (`createdAt`, `text`), every field
possibly absent. -/
structure QuoteValue where
  createdAt : Option String
  text : Option String
deriving DecidableEq, Repr

/-- The inner `embed.record.record` object of a quote view. -/
structure QuoteInner where
  author : Option ProfileBasic
  createdAt : Option String
  value : Option QuoteValue
  description : Option String
deriving DecidableEq, Repr

/-- One element of `embed.record.embeds`. -/
structure QuoteEmbedsItem where
  images : Option (List EmbedImage)
deriving DecidableEq, Repr

/-- The `embed.record` object of a record / recordWithMedia view. -/
structure QuoteRecord where
  notFound : Option Bool
  author : Option ProfileBasic
  record : Option QuoteInner
  creator : Option ProfileBasic
  value : Option QuoteValue
  embeds : Option (List QuoteEmbedsItem)
deriving DecidableEq, Repr

/-- The `embed.media` object of a recordWithMedia view; `type` holds
the JSON `$type` tag. -/
structure ViewMedia where
  type : String
  external : Option ExternalObj
  images : Option (List EmbedImage)
deriving DecidableEq, Repr

/-- The rendered (hydrated) embed view of a post; `type` holds the JSON
`$type` tag.  Only the fields the source reads are modelled. -/
structure REmbed where
  type : String
  record : Option QuoteRecord
  images : Option (List EmbedImage)
  text : Option String
  media : Option ViewMedia
  external : Option ExternalObj
  thumbnail : String
deriving DecidableEq, Repr

/-- The record-level embed descriptor (`record.embed`); `type` holds
the JSON `$type` tag; `media.images` is read on the recordWithMedia
path. -/
structure RecEmbedMedia where
  images : Option (List EmbedImage)
deriving DecidableEq, Repr

/-- See `RecEmbedMedia`. -/
structure RecEmbed where
  type : String
  media : Option RecEmbedMedia
deriving DecidableEq, Repr

/-- The `record` of a post (`text`, `createdAt`, optional `embed`). -/
structure PostRecord where
  text : String
  createdAt : String
  embed : Option RecEmbed
deriving DecidableEq, Repr

/-- The `post` object of a raw feed item, as destructured by
`transformSingle`. -/
structure PostView where
  uri : String
  author : ProfileBasic
  record : PostRecord
  embed : Option REmbed
  replyCount : Nat
deriving DecidableEq, Repr

/-- One element of the likes feed (`{post}`), as destructured by
`transformSingle`. -/
structure RawItem where
  post : PostView
deriving DecidableEq, Repr

/-- The flat record returned by `transformSingle` (index.ts lines
125-130).  `embedImages` is `none` when the source variable holds
`undefined` (possible on the recordWithMedia path). -/
structure NormalizedPost where
  uri : String
  handle : String
  displayName : String
  text : String
  embed : Option REmbed
  embedImages : Option (List String)
  embedText : Option String
  embedRecords : List String
  createdAt : String
  replyCount : Nat
  userUrl : String
deriving DecidableEq, Repr

/-- The three mutable locals of `transformSingle` (index.ts lines
79-81). -/
structure EmbState where
  embedImages : Option (List String)
  embedText : Option String
  embedRecords : List String
deriving DecidableEq, Repr

/-- Truthiness of `embed?.record?.notFound` (index.ts line 84). -/
def notFoundish (post : PostView) : Bool :=
  match post.embed with
  | none => false
  | some em =>
    match em.record with
    | none => false
    | some qr => qr.notFound.getD false

/-- index.ts lines 85-88: the `images` / `images#view` branch. -/
def branchImages (post : PostView) (recEmbType : Option String) (s : EmbState) :
    Except String EmbState :=
  if recEmbType = some "app.bsky.embed.images" then
    match post.embed with
    | none => .error typeErrMsg
    | some em =>
      if em.type = "app.bsky.embed.images#view" then
        match em.images with
        | none => .error typeErrMsg
        | some imgs =>
          .ok { s with
            embedImages := some (imgs.map (·.fullsize)),
            embedText := some (jsToString em.text ++ "\nAlt texts: \"" ++
              joinSep "\", \"" (imgs.map (·.alt))) }
      else .ok s
  else .ok s

/-- index.ts lines 90-100: the `recordWithMedia` /
`recordWithMedia#view` media branch. -/
def branchRWM (post : PostView) (recEmbType : Option String) (s : EmbState) :
    Except String EmbState :=
  if recEmbType = some "app.bsky.embed.recordWithMedia" then
    match post.embed with
    | none => .error typeErrMsg
    | some em =>
      if em.type = "app.bsky.embed.recordWithMedia#view" then
        match em.media with
        | none => .error typeErrMsg
        | some media =>
          if media.type = "app.bsky.embed.external#view" then
            match media.external with
            | none => .error destructureErrMsg
            | some ext =>
              .ok { s with embedImages := some [ext.thumb], embedText := some ext.description }
          else
            let images1 := media.images.map (fun l => l.map (·.fullsize))
            match post.record.embed with
            | none => .error typeErrMsg
            | some re =>
              match re.media with
              | none => .error typeErrMsg
              | some rm =>
                match rm.images with
                | none => .ok { s with embedImages := images1, embedText := some "" }
                | some [] => .error typeErrMsg
                | some (i :: _) => .ok { s with embedImages := images1, embedText := some i.alt }
      else .ok s
  else .ok s

/-- index.ts lines 102-113: the quote-post branch (`record#view`, or
`recordWithMedia#view` evaluated in addition to `branchRWM`). -/
def branchQuote (post : PostView) (recEmbType : Option String) (s : EmbState) :
    Except String EmbState :=
  let condRes : Except String Bool :=
    if recEmbType = some "app.bsky.embed.record" then
      match post.embed with
      | none => .error typeErrMsg
      | some em => .ok (em.type = "app.bsky.embed.record#view")
    else if recEmbType = some "app.bsky.embed.recordWithMedia" then
      match post.embed with
      | none => .error typeErrMsg
      | some em => .ok (em.type = "app.bsky.embed.recordWithMedia#view")
    else .ok false
  condRes.bind fun cond =>
    if cond then
      match post.embed with
      | none => .error typeErrMsg
      | some em =>
        match em.record with
        | none => .error typeErrMsg
        | some qr =>
          match (qr.author <|> qr.record.bind (·.author)) <|> qr.creator with
          | none => .error destructureErrMsg
          | some authorObj =>
            let createdAt? := qr.value.bind (·.createdAt) <|>
              (qr.record.bind (·.createdAt) <|> qr.record.bind (fun r => r.value.bind (·.createdAt)))
            let text? := (qr.value.bind (·.text) <|>
              qr.record.bind (fun r => r.value.bind (·.text))) <|> qr.record.bind (·.description)
            let s1 := { s with embedRecords := s.embedRecords ++
              ["\"" ++ jsToString text? ++ "\" -- @" ++ authorObj.handle ++ " / " ++
                authorObj.displayName ++ " at " ++ jsToString createdAt?] }
            let es := qr.embeds.getD []
            if es.isEmpty then .ok s1
            else .ok { s1 with embedImages := some (es.foldl
              (fun a it => a ++ ((it.images.map (fun l => l.map (·.fullsize))).getD [])) []) }
    else .ok s

/-- index.ts lines 115-118: the `external` / `external#view` branch. -/
def branchExternal (post : PostView) (recEmbType : Option String) (s : EmbState) :
    Except String EmbState :=
  if recEmbType = some "app.bsky.embed.external" then
    match post.embed with
    | none => .error typeErrMsg
    | some em =>
      if em.type = "app.bsky.embed.external#view" then
        match em.external with
        | none => .error destructureErrMsg
        | some ext =>
          .ok { s with embedRecords := s.embedRecords ++
            ["\"\x27" ++ ext.title ++ "\x27 -- " ++ ext.description ++ "\" -- @" ++
              post.author.handle ++ " / " ++ post.author.displayName ++ " at " ++
              post.record.createdAt] }
      else .ok s
  else .ok s

/-- index.ts lines 120-122: the `video` / `video#view` branch. -/
def branchVideo (post : PostView) (recEmbType : Option String) (s : EmbState) :
    Except String EmbState :=
  if recEmbType = some "app.bsky.embed.video" then
    match post.embed with
    | none => .error typeErrMsg
    | some em =>
      if em.type = "app.bsky.embed.video#view" then
        .ok { s with embedImages := some [em.thumbnail] }
      else .ok s
  else .ok s

/-- index.ts lines 65-131: `transformSingle`.  Normalizes one raw feed
item; a thrown JavaScript error is an `Except.error`. -/
def transformSingle (item : RawItem) : Except String NormalizedPost :=
  let post := item.post
  let parts := jsSplit (post.uri.drop 5) (Char.ofNat 0x2f)
  if parts[1]? ≠ some "app.bsky.feed.post" then
    .error ("Unknown post type \"" ++ jsToString parts[1]? ++ "\" for " ++ post.uri)
  else
    let recEmbType := post.record.embed.map (·.type)
    let s0 : EmbState := ⟨some [], none, []⟩
    let sFinal : Except String EmbState :=
      if notFoundish post then .ok s0
      else
        (((branchImages post recEmbType s0).bind
          (branchRWM post recEmbType)).bind
          (branchQuote post recEmbType)).bind
          (fun s => (branchExternal post recEmbType s).bind
            (branchVideo post recEmbType))
    sFinal.map fun s =>
      { uri := post.uri, handle := post.author.handle,
        displayName := post.author.displayName, text := post.record.text,
        embed := post.embed, embedImages := s.embedImages,
        embedText := s.embedText, embedRecords := s.embedRecords,
        createdAt := post.record.createdAt, replyCount := post.replyCount,
        userUrl := "https://bsky.app/profile/" ++ post.author.handle ++ "/post/" ++
          jsToString parts[2]? }

/-- JavaScript `Array.prototype.map` with a callback that may throw:
the first thrown error aborts the whole map. -/
def jsMapThrow (f : α → Except ε β) : List α → Except ε (List β)
  | [] => .ok []
  | x :: xs =>
    match f x with
    | .error e => .error e
    | .ok y => (jsMapThrow f xs).map (fun ys => y :: ys)

/-- index.ts lines 133-135: `transformFeed`. -/
def transformFeed (allData : List RawItem) : Except String (List NormalizedPost) :=
  jsMapThrow transformSingle allData

/-- An author object carrying a `did`, as compared by
`repliesFromAuthor`. -/
structure DidAuthor where
  did : String
deriving DecidableEq, Repr

/-- The `record` of a thread reply (`text`, `createdAt`). -/
structure ThreadRecord where
  text : String
  createdAt : String
deriving DecidableEq, Repr

/-- The `post` object inside a thread node (`author.did` and `record`
are the fields the source reads). -/
structure ThreadPost where
  author : Option DidAuthor
  record : ThreadRecord
deriving DecidableEq, Repr

/-- One node of the thread tree returned by `getPostThread`.  In the
thread API a node is `{post, replies}`; the node-level `author` field
does not exist in that shape (authors live at `post.author`), but the
source reads `fPost?.author?.did`, so the access is modelled as an
always-present optional field, `none` in API-conformant data. -/
inductive ThreadNode where
  | mk (author : Option DidAuthor) (post : ThreadPost)
       (replies : Option (List ThreadNode))

/-- Node-level `author` (read by the filter at index.ts line 140). -/
def ThreadNode.author : ThreadNode → Option DidAuthor
  | .mk a _ _ => a

/-- The field `post` of the node. -/
def ThreadNode.post : ThreadNode → ThreadPost
  | .mk _ p _ => p

/-- The field `replies` of the node (possibly absent). -/
def ThreadNode.replies : ThreadNode → Option (List ThreadNode)
  | .mk _ _ r => r

/-- JavaScript comparison `a?.did === b?.did` on possibly-undefined
author objects (`undefined === undefined` is true). -/
def didEq (a b : Option DidAuthor) : Bool :=
  (a.map (·.did)) == (b.map (·.did))

/-- JavaScript `Array.prototype.sort` comparator
`a.createdAt.localeCompare(b.createdAt)` (stable sort, lexicographic
on ISO-8601 strings). -/
def sortByCreatedAt (l : List ThreadRecord) : List ThreadRecord :=
  l.mergeSort (fun a b => a.createdAt ≤ b.createdAt)

mutual
/-- index.ts lines 137-150: `repliesFromAuthor`.  Walks the reply tree
collecting records of replies whose node-level `author.did` equals the
the `post.author.did` of the current node, then sorts by `createdAt`. -/
def repliesFromAuthor (postObj : ThreadNode) : Except String (List ThreadRecord) :=
  match postObj with
  | .mk _author post replies? =>
    match replies? with
    | none => .error typeErrMsg
    | some replies =>
      let authorsChildren := replies.filter
        (fun fPost => didEq (ThreadNode.author fPost) post.author)
      (collectChildren authorsChildren).map sortByCreatedAt
termination_by sizeOf postObj
decreasing_by
  simp_wf
  have hle : ∀ (q : ThreadNode → Bool) (l : List ThreadNode),
      sizeOf (l.filter q) ≤ sizeOf l := by
    intro q l
    induction l with
    | nil => simp
    | cons x xs ih =>
      rw [List.filter_cons]
      split
      · simp only [List.cons.sizeOf_spec]; omega
      · simp only [List.cons.sizeOf_spec]; omega
  exact lt_of_le_of_lt (hle _ _) (by omega)

/-- The loop body of `repliesFromAuthor` (index.ts lines 142-147):
for each kept child, take its record, then recurse when the child has
a non-empty `replies` list. -/
def collectChildren : List ThreadNode → Except String (List ThreadRecord)
  | [] => .ok []
  | aChild :: restChildren =>
    match ThreadNode.replies aChild with
    | some (_ :: _) =>
      (repliesFromAuthor aChild).bind fun sub =>
        (collectChildren restChildren).map fun rest =>
          (ThreadNode.post aChild).record :: (sub ++ rest)
    | _ =>
      (collectChildren restChildren).map fun rest =>
        (ThreadNode.post aChild).record :: rest
termination_by l => sizeOf l
decreasing_by
  all_goals simp_wf <;> omega
end

/-- The `data` object returned by `getPostThread`. -/
structure ThreadData where
  thread : ThreadNode

/-- index.ts lines 152-154: `processThread`. -/
def processThread (threadDataObj : ThreadData) : Except String (List ThreadRecord) :=
  repliesFromAuthor threadDataObj.thread

/-- index.ts lines 18-23: the `HLTEPostPayload` wire record. -/
structure HLTEPostPayload where
  uri : String
  data : String
  annotation : Option String
  secondaryURI : Option String
deriving DecidableEq, Repr

/-- Projection helper for the optional payload context field. -/
def annotOf (p : HLTEPostPayload) : Option String := HLTEPostPayload.annotation p

/-- JavaScript `payload.annotation += s` (string concatenation; an
`undefined` left operand renders as the string `undefined`). -/
def annAppend (a : Option String) (s : String) : Option String :=
  some (jsToString a ++ s)

/-- index.ts lines 185-208: construction of the `HLTEPostPayload` for
one not-yet-seen entry (the pure part of the loop body of `pollFeed`,
before thread enrichment and delivery). -/
def buildPayload (actorHandle : String) (e : NormalizedPost) : HLTEPostPayload :=
  let payload0 : HLTEPostPayload :=
    { uri := e.userUrl,
      data := e.text ++ "\n\n-- @" ++ e.handle ++ " / " ++ e.displayName,
      annotation := some ("(from @" ++ actorHandle ++
        "\x27s bluesky-likes, original post made at " ++ e.createdAt ++ ")\n"),
      secondaryURI := none }
  let payload1 : HLTEPostPayload :=
    match e.embedImages with
    | some (picked :: rest) =>
      let pA : HLTEPostPayload :=
        { payload0 with secondaryURI := some payload0.uri, uri := picked }
      let capStr := "\n** Embed text:\n\"" ++ jsToString e.embedText ++ "\"\n"
      let pB : HLTEPostPayload :=
        if strTruthy e.embedText then
          { pA with annotation := annAppend (annotOf pA) capStr }
        else pA
      let restStr := "\n** Remaining image embeds:\n" ++ joinSep "\n" rest ++ "\n"
      if rest.isEmpty then pB
      else { pB with annotation := annAppend (annotOf pB) restStr }
    | _ => payload0
  let repostStr := "\n** Reposting:\n\n" ++ joinSep "\n---\n" e.embedRecords ++ "\n"
  if e.embedRecords.isEmpty then payload1
  else { payload1 with annotation := annAppend (annotOf payload1) repostStr }

/-- One page returned by `getActorLikes`. -/
structure FeedPage where
  feed : List RawItem
  cursor : Option String

/-- One request issued by the pagination loop (`{limit, cursor}`). -/
structure FetchReq where
  limit : Nat
  cursor : Option String
deriving DecidableEq, Repr

/-- index.ts lines 157-173: the pagination loop of `pollFeed`, run
against the list of responses the feed source would return to the
successive requests.  Returns the accumulated items and the issued
requests, or `none` when the loop would consume more responses than
provided (it only stops on an empty page). -/
def fetchGo : Option String → List FeedPage → Option (List RawItem × List FetchReq)
  | _, [] => none
  | cursor, page :: rest =>
    let req : FetchReq := ⟨100, cursor⟩
    if page.feed.isEmpty then some ([], [req])
    else
      match fetchGo page.cursor rest with
      | none => none
      | some (items, reqs) => some (page.feed ++ items, req :: reqs)

/-- The pagination loop started with an undefined cursor. -/
def fetchAllLikes (responses : List FeedPage) : Option (List RawItem × List FetchReq) :=
  fetchGo none responses

/-- Observable side effects of the per-post loop of `pollFeed`: the
thread fetch (`getPostThread`), the downstream delivery (`hlteFetch`,
recording the response status), and the seen-set insertion
(`redis.sadd`). -/
inductive Ev where
  | threadFetch (uri : String) (depth : Nat)
  | deliver (uri : String) (status : Nat)
  | sadd (uri : String)
deriving DecidableEq, Repr

/-- State threaded through one poll cycle: the seen-set (the redis set
of processed URIs) and the trace of side effects, oldest first. -/
structure CycleSt where
  seen : List String
  events : List Ev
deriving DecidableEq, Repr

/-- External collaborators of the loop, as response functions: the
thread-fetch API and the downstream endpoint (delivery status for a
payload). -/
structure Oracles where
  fetchThread : String → Nat → ThreadData
  respond : HLTEPostPayload → Nat

/-- The thread-fetch events caused by one entry (index.ts lines
210-214: a single `getPostThread` call when `replyCount > 0`, with
depth `min replyCount THREAD_MAX_FETCH_DEPTH`). -/
def threadEvents (e : NormalizedPost) (maxDepth : Nat) : List Ev :=
  if 0 < e.replyCount then [Ev.threadFetch e.uri (min e.replyCount maxDepth)] else []

/-- index.ts lines 210-225: thread enrichment of the payload (fetch
the thread when `replyCount > 0`, append the self-thread texts to the
payload context when any were extracted).  A `processThread` error
propagates. -/
def enrichThread (o : Oracles) (maxDepth : Nat) (payload : HLTEPostPayload)
    (e : NormalizedPost) : Except String HLTEPostPayload :=
  if 0 < e.replyCount then
    match processThread (o.fetchThread e.uri (min e.replyCount maxDepth)) with
    | .error err => .error err
    | .ok children =>
      let thrStr := "** OP\x27s remaining thread:\n" ++
        joinSep "\n" (children.map (·.text)) ++ "\n"
      if children.isEmpty then .ok payload
      else .ok { payload with annotation := annAppend (annotOf payload) thrStr }
  else .ok payload

/-- index.ts lines 183-243: the body of the per-post loop of
`pollFeed` for one entry.  `noProc` is the `BSKYHLTE_NO_PROCESSING`
flag (skip delivery after building/enriching the payload). -/
def processEntry (o : Oracles) (actorHandle : String) (noProc : Bool) (maxDepth : Nat)
    (st : CycleSt) (e : NormalizedPost) : Except String CycleSt :=
  if e.uri ∈ st.seen then .ok st
  else
    match enrichThread o maxDepth (buildPayload actorHandle e) e with
    | .error msg => .error msg
    | .ok payload =>
      let st1 : CycleSt := ⟨st.seen, st.events ++ threadEvents e maxDepth⟩
      if noProc then .ok st1
      else
        let status := o.respond payload
        let st2 : CycleSt := ⟨st1.seen, st1.events ++ [Ev.deliver e.uri status]⟩
        if status ≠ 204 then .ok st2
        else .ok ⟨e.uri :: st2.seen, st2.events ++ [Ev.sadd e.uri]⟩

/-- index.ts lines 183-243: the per-post loop of `pollFeed` over the
transformed feed. -/
def pollCycle (o : Oracles) (actorHandle : String) (noProc : Bool) (maxDepth : Nat) :
    CycleSt → List NormalizedPost → Except String CycleSt
  | st, [] => .ok st
  | st, e :: rest =>
    match processEntry o actorHandle noProc maxDepth st e with
    | .error msg => .error msg
    | .ok st1 => pollCycle o actorHandle noProc maxDepth st1 rest

/-- Number of `sadd u` events in a trace. -/
def saddCount (u : String) (evs : List Ev) : Nat :=
  (evs.filter (fun ev => match ev with | Ev.sadd v => v == u | _ => false)).length

/-- Number of `deliver u _` events in a trace. -/
def deliverCount (u : String) (evs : List Ev) : Nat :=
  (evs.filter (fun ev => match ev with | Ev.deliver v _ => v == u | _ => false)).length

/-- `sub` occurs inside `hay` (substring as string concatenation). -/
def containsStr (hay sub : String) : Prop := ∃ p s, hay = p ++ sub ++ s

/-! ### Concrete fixtures used by witnesses and counterexamples -/

/-- A plain text post "hello" by author `@alice` / "Alice". -/
def rawAlice : RawItem :=
  { post := { uri := "at://did:plc:alice/app.bsky.feed.post/xyz",
              author := ⟨"alice", "Alice"⟩,
              record := { text := "hello", createdAt := "2024-05-01T00:00:00Z", embed := none },
              embed := none, replyCount := 0 } }

/-- The normalized form of `rawAlice`. -/
def nY : NormalizedPost :=
  { uri := "at://did:plc:alice/app.bsky.feed.post/xyz", handle := "alice",
    displayName := "Alice", text := "hello", embed := none, embedImages := some [],
    embedText := none, embedRecords := [], createdAt := "2024-05-01T00:00:00Z",
    replyCount := 0, userUrl := "https://bsky.app/profile/alice/post/xyz" }

/-- Self-thread records of the root author at T1 < T2 < T3, and a
third-party record at T1.5. -/
def recA1 : ThreadRecord := ⟨"t1", "2024-01-01T01:00:00Z"⟩

/-- See `recA1`. -/
def recA2 : ThreadRecord := ⟨"t2", "2024-01-01T02:00:00Z"⟩

/-- See `recA1`. -/
def recA3 : ThreadRecord := ⟨"t3", "2024-01-01T03:00:00Z"⟩

/-- See `recA1`. -/
def recB : ThreadRecord := ⟨"third-party", "2024-01-01T01:30:00Z"⟩

/-- The did of the root author. -/
def didA : DidAuthor := ⟨"did:plc:rootauthor"⟩

/-- The did of a third party. -/
def didB : DidAuthor := ⟨"did:plc:thirdparty"⟩

/-- Reply nodes in API-conformant shape: the author did sits at
`post.author`, there is no node-level `author` field. -/
def nodeA1 : ThreadNode := .mk none ⟨some didA, recA1⟩ (some [])

/-- See `nodeA1`. -/
def nodeA2 : ThreadNode := .mk none ⟨some didA, recA2⟩ (some [])

/-- See `nodeA1`. -/
def nodeA3 : ThreadNode := .mk none ⟨some didA, recA3⟩ (some [])

/-- See `nodeA1`. -/
def nodeB : ThreadNode := .mk none ⟨some didB, recB⟩ (some [])

/-- The reply tree of the self-thread example: root-author replies at
T3, T1, T2 in tree order, a third-party reply interleaved at T1.5. -/
def rootNode : ThreadNode :=
  .mk none ⟨some didA, ⟨"root", "2024-01-01T00:00:00Z"⟩⟩
    (some [nodeA3, nodeB, nodeA1, nodeA2])

/-- Oracles for witnesses: every delivery returns 204. -/
def oW : Oracles := ⟨fun _ _ => ⟨rootNode⟩, fun _ => 204⟩

/-- Oracles for witnesses: every delivery returns 500. -/
def oFail : Oracles := ⟨fun _ _ => ⟨rootNode⟩, fun _ => 500⟩

/-- A 100-item page, a second 100-item page, a 42-item page, then the
empty page ending the feed. -/
def demoPages : List FeedPage :=
  [⟨List.replicate 100 rawAlice, some "c1"⟩, ⟨List.replicate 100 rawAlice, some "c2"⟩,
   ⟨List.replicate 42 rawAlice, some "c3"⟩, ⟨[], none⟩]

/-- A post with a two-image embed (`a.jpg`/`b.jpg`, alts cat/dog). -/
def rawImages : RawItem :=
  { post := { uri := "at://did:plc:alice/app.bsky.feed.post/img1",
              author := ⟨"alice", "Alice"⟩,
              record := { text := "look", createdAt := "2024-05-01T00:00:00Z",
                          embed := some ⟨"app.bsky.embed.images", none⟩ },
              embed := some { type := "app.bsky.embed.images#view", record := none,
                              images := some [⟨"a.jpg", "cat"⟩, ⟨"b.jpg", "dog"⟩],
                              text := none, media := none, external := none,
                              thumbnail := "" },
              replyCount := 0 } }

/-- A quote post whose quoted record carries none of the three author
nesting positions. -/
def rawQuoteCrash : RawItem :=
  { post := { uri := "at://did:plc:alice/app.bsky.feed.post/q1",
              author := ⟨"alice", "Alice"⟩,
              record := { text := "q", createdAt := "2024-05-01T00:00:00Z",
                          embed := some ⟨"app.bsky.embed.record", none⟩ },
              embed := some { type := "app.bsky.embed.record#view",
                              record := some { notFound := none, author := none,
                                               record := none, creator := none,
                                               value := none, embeds := none },
                              images := none, text := none, media := none,
                              external := none, thumbnail := "" },
              replyCount := 0 } }

/-- A feed item whose URI collection segment is not a feed post. -/
def rawBadKind : RawItem :=
  { post := { uri := "at://did:plc:alice/app.bsky.graph.follow/f1",
              author := ⟨"alice", "Alice"⟩,
              record := { text := "x", createdAt := "2024-05-01T00:00:00Z", embed := none },
              embed := none, replyCount := 0 } }

/-- The base payload context string (index.ts line 191). -/
def baseStr (actorHandle : String) (e : NormalizedPost) : String :=
  "(from @" ++ actorHandle ++ "\x27s bluesky-likes, original post made at " ++
    e.createdAt ++ ")\n"

/-- The embed-text block appended when the caption is truthy (index.ts
lines 198-200). -/
def capBlock (e : NormalizedPost) : String :=
  if strTruthy e.embedText then
    "\n** Embed text:\n\"" ++ jsToString e.embedText ++ "\"\n"
  else ""

/-- The remaining-images block (index.ts lines 201-203). -/
def restBlock (rest : List String) : String :=
  if rest.isEmpty then ""
  else "\n** Remaining image embeds:\n" ++ joinSep "\n" rest ++ "\n"

/-- The reposting block (index.ts lines 206-208). -/
def repostBlock (e : NormalizedPost) : String :=
  if e.embedRecords.isEmpty then ""
  else "\n** Reposting:\n\n" ++ joinSep "\n---\n" e.embedRecords ++ "\n"

/-- A normalized post carrying two embed images with a truthy caption. -/
def nImg : NormalizedPost :=
  { uri := "at://did:plc:alice/app.bsky.feed.post/img1", handle := "alice",
    displayName := "Alice", text := "look", embed := none,
    embedImages := some ["a.jpg", "b.jpg"], embedText := some "two cats",
    embedRecords := [], createdAt := "2024-05-01T00:00:00Z", replyCount := 0,
    userUrl := "https://bsky.app/profile/alice/post/img1" }

/-! ### Helper lemmas -/

theorem processEntry_new (o : Oracles) (ah : String) (md : Nat) (st : CycleSt)
    (e : NormalizedPost) (p : HLTEPostPayload)
    (h1 : e.uri ∉ st.seen)
    (h2 : enrichThread o md (buildPayload ah e) e = .ok p) :
    processEntry o ah false md st e =
      .ok (if o.respond p = 204
        then ⟨e.uri :: st.seen,
          st.events ++ threadEvents e md ++ [Ev.deliver e.uri (o.respond p), Ev.sadd e.uri]⟩
        else ⟨st.seen, st.events ++ threadEvents e md ++ [Ev.deliver e.uri (o.respond p)]⟩) := by
  by_cases h204 : o.respond p = 204 <;>
    simp [processEntry, h1, h2, h204]

theorem processEntry_seen (o : Oracles) (ah : String) (noProc : Bool) (md : Nat)
    (st : CycleSt) (e : NormalizedPost) (h : e.uri ∈ st.seen) :
    processEntry o ah noProc md st e = .ok st := by
  simp [processEntry, h]

theorem saddCount_append (u : String) (a b : List Ev) :
    saddCount u (a ++ b) = saddCount u a + saddCount u b := by
  simp [saddCount, List.filter_append]

theorem deliverCount_append (u : String) (a b : List Ev) :
    deliverCount u (a ++ b) = deliverCount u a + deliverCount u b := by
  simp [deliverCount, List.filter_append]

theorem saddCount_threadEvents (u : String) (e : NormalizedPost) (md : Nat) :
    saddCount u (threadEvents e md) = 0 := by
  unfold threadEvents
  split <;> simp [saddCount]

theorem deliverCount_threadEvents (u : String) (e : NormalizedPost) (md : Nat) :
    deliverCount u (threadEvents e md) = 0 := by
  unfold deliverCount threadEvents
  split <;> simp

theorem saddCount_deliver (u v : String) (s : Nat) :
    saddCount u [Ev.deliver v s] = 0 := by
  simp [saddCount]

theorem deliverCount_sadd (u v : String) :
    deliverCount u [Ev.sadd v] = 0 := by
  simp [deliverCount]

theorem saddCount_sadd (u v : String) :
    saddCount u [Ev.sadd v] = if v = u then 1 else 0 := by
  by_cases h : v = u <;> simp [saddCount, h]

theorem deliverCount_deliver (u v : String) (s : Nat) :
    deliverCount u [Ev.deliver v s] = if v = u then 1 else 0 := by
  by_cases h : v = u <;> simp [deliverCount, h]

theorem processEntry_preserve (o : Oracles) (ah : String) (noProc : Bool) (md : Nat)
    (st st1 : CycleSt) (e : NormalizedPost) (u : String)
    (hok : processEntry o ah noProc md st e = .ok st1)
    (hcase : e.uri ≠ u ∨ u ∈ st.seen) :
    (u ∈ st1.seen ↔ u ∈ st.seen) ∧
      saddCount u st1.events = saddCount u st.events ∧
      deliverCount u st1.events = deliverCount u st.events := by
  unfold processEntry at hok
  by_cases hmem : e.uri ∈ st.seen
  · rw [if_pos hmem] at hok
    cases hok
    exact ⟨Iff.rfl, rfl, rfl⟩
  · rw [if_neg hmem] at hok
    have hne : e.uri ≠ u := by
      rcases hcase with h | h
      · exact h
      · intro heq; exact hmem (heq ▸ h)
    rcases henr : enrichThread o md (buildPayload ah e) e with msg | payload
    · rw [henr] at hok; cases hok
    · rw [henr] at hok
      by_cases hnp : noProc
      · simp only [hnp, if_true] at hok
        cases hok
        simp [saddCount_append, deliverCount_append, saddCount_threadEvents,
          deliverCount_threadEvents]
      · simp only [hnp, if_false] at hok
        by_cases hst : o.respond payload ≠ 204
        · rw [if_pos hst] at hok
          cases hok
          simp [saddCount_append, deliverCount_append, saddCount_threadEvents,
            deliverCount_threadEvents, saddCount_deliver, deliverCount_deliver, hne]
        · rw [if_neg hst] at hok
          cases hok
          constructor
          · simp [List.mem_cons]
            intro hu; exact absurd hu.symm hne
          · have h1 : saddCount u [Ev.deliver e.uri (o.respond payload), Ev.sadd e.uri] = 0 := by
              simp [saddCount, hne]
            have h2 : deliverCount u [Ev.deliver e.uri (o.respond payload), Ev.sadd e.uri] = 0 := by
              simp [deliverCount, hne]
            simp [saddCount_append, deliverCount_append, saddCount_threadEvents,
              deliverCount_threadEvents, h1, h2]

theorem pollCycle_frozen (o : Oracles) (ah : String) (noProc : Bool) (md : Nat)
    (u : String) :
    ∀ (es : List NormalizedPost) (st stF : CycleSt),
      u ∈ st.seen → pollCycle o ah noProc md st es = .ok stF →
      u ∈ stF.seen ∧ saddCount u stF.events = saddCount u st.events ∧
        deliverCount u stF.events = deliverCount u st.events := by
  intro es
  induction es with
  | nil =>
    intro st stF hu hok
    cases hok
    exact ⟨hu, rfl, rfl⟩
  | cons e rest ih =>
    intro st stF hu hok
    unfold pollCycle at hok
    rcases hpe : processEntry o ah noProc md st e with msg | st1
    · rw [hpe] at hok; cases hok
    · rw [hpe] at hok
      have hpres := processEntry_preserve o ah noProc md st st1 e u hpe (Or.inr hu)
      have hrest := ih st1 stF (hpres.1.mpr hu) hok
      exact ⟨hrest.1, hrest.2.1.trans hpres.2.1, hrest.2.2.trans hpres.2.2⟩

theorem pollCycle_avoid (o : Oracles) (ah : String) (noProc : Bool) (md : Nat)
    (u : String) :
    ∀ (es : List NormalizedPost) (st stF : CycleSt),
      (∀ e ∈ es, e.uri ≠ u) → pollCycle o ah noProc md st es = .ok stF →
      (u ∈ stF.seen ↔ u ∈ st.seen) ∧
        saddCount u stF.events = saddCount u st.events ∧
        deliverCount u stF.events = deliverCount u st.events := by
  intro es
  induction es with
  | nil =>
    intro st stF _ hok
    cases hok
    exact ⟨Iff.rfl, rfl, rfl⟩
  | cons e rest ih =>
    intro st stF hav hok
    unfold pollCycle at hok
    rcases hpe : processEntry o ah noProc md st e with msg | st1
    · rw [hpe] at hok; cases hok
    · rw [hpe] at hok
      have hpres := processEntry_preserve o ah noProc md st st1 e u hpe
        (Or.inl (hav e (List.mem_cons_self e rest)))
      have hrest := ih st1 stF (fun x hx => hav x (List.mem_cons_of_mem e hx)) hok
      exact ⟨hrest.1.trans hpres.1, hrest.2.1.trans hpres.2.1, hrest.2.2.trans hpres.2.2⟩

theorem repliesFromAuthor_no_toplevel_author (a : DidAuthor) (auth : Option DidAuthor)
    (tp : ThreadPost) (replies : List ThreadNode)
    (hroot : tp.author = some a)
    (hrep : ∀ n ∈ replies, ThreadNode.author n = none) :
    repliesFromAuthor (.mk auth tp (some replies)) = .ok [] := by
  rw [repliesFromAuthor]
  have hfil : replies.filter (fun fPost => didEq (ThreadNode.author fPost) tp.author) = [] := by
    rw [List.filter_eq_nil_iff]
    intro n hn
    rw [hrep n hn, hroot]
    simp [didEq]
  rw [hfil, collectChildren]
  show Except.ok (sortByCreatedAt []) = Except.ok []
  rw [show sortByCreatedAt [] = [] from by simp [sortByCreatedAt]]

theorem fetchGo_cons (c : Option String) (page : FeedPage) (rest : List FeedPage) :
    fetchGo c (page :: rest) =
      (if page.feed.isEmpty then some ([], [(⟨100, c⟩ : FetchReq)])
       else match fetchGo page.cursor rest with
         | none => none
         | some (items, reqs) => some (page.feed ++ items, (⟨100, c⟩ : FetchReq) :: reqs)) := rfl

theorem pollCycle_cons (o : Oracles) (ah : String) (noProc : Bool) (md : Nat)
    (st : CycleSt) (e : NormalizedPost) (rest : List NormalizedPost) :
    pollCycle o ah noProc md st (e :: rest) =
      match processEntry o ah noProc md st e with
      | Except.error msg => Except.error msg
      | Except.ok st1 => pollCycle o ah noProc md st1 rest := rfl

theorem pollCycle_append (o : Oracles) (ah : String) (noProc : Bool) (md : Nat)
    (l2 : List NormalizedPost) :
    ∀ (l1 : List NormalizedPost) (st : CycleSt),
      pollCycle o ah noProc md st (l1 ++ l2) =
        (pollCycle o ah noProc md st l1).bind (fun st1 => pollCycle o ah noProc md st1 l2) := by
  intro l1
  induction l1 with
  | nil => intro st; rfl
  | cons e rest ih =>
    intro st
    rw [List.cons_append, pollCycle_cons, pollCycle_cons]
    cases hpe : processEntry o ah noProc md st e with
    | error msg => rfl
    | ok st1 => exact ih st1

theorem containsStr_here (p sub s : String) : containsStr (p ++ sub ++ s) sub :=
  ⟨p, s, rfl⟩

theorem containsStr_append_left (a : String) {h sub : String}
    (hc : containsStr h sub) : containsStr (a ++ h) sub := by
  obtain ⟨p, s, he⟩ := hc
  exact ⟨a ++ p, s, by rw [he]; simp [String.append_assoc]⟩

theorem containsStr_append_right (b : String) {h sub : String}
    (hc : containsStr h sub) : containsStr (h ++ b) sub := by
  obtain ⟨p, s, he⟩ := hc
  exact ⟨p, s ++ b, by rw [he]; simp [String.append_assoc]⟩

theorem joinSep_contains (sep r : String) :
    ∀ (l : List String), r ∈ l → containsStr (joinSep sep l) r := by
  intro l
  induction l with
  | nil => intro h; cases h
  | cons x xs ih =>
    intro h
    cases xs with
    | nil =>
      have hx : r = x := by simpa using h
      subst hx
      exact ⟨"", "", by simp [joinSep, String.empty_append, String.append_empty]⟩
    | cons y ys =>
      rcases List.mem_cons.mp h with hx | hmem
      · subst hx
        show containsStr (r ++ sep ++ joinSep sep (y :: ys)) r
        refine ⟨"", sep ++ joinSep sep (y :: ys), ?_⟩
        simp [String.empty_append, String.append_assoc]
      · show containsStr (x ++ sep ++ joinSep sep (y :: ys)) r
        rw [String.append_assoc]
        exact containsStr_append_left x (containsStr_append_left sep (ih hmem))

theorem buildPayload_images_eq (ah : String) (e : NormalizedPost) (img : String)
    (rest : List String) (h : e.embedImages = some (img :: rest)) :
    buildPayload ah e =
      { uri := img,
        data := e.text ++ "\n\n-- @" ++ e.handle ++ " / " ++ e.displayName,
        annotation := some (baseStr ah e ++ capBlock e ++ restBlock rest ++ repostBlock e),
        secondaryURI := some e.userUrl } := by
  by_cases ht : strTruthy e.embedText <;>
    by_cases hr : rest.isEmpty <;>
      by_cases hrec : e.embedRecords.isEmpty <;>
        simp [buildPayload, h, ht, hr, hrec, annAppend, annotOf, jsToString,
          baseStr, capBlock, restBlock, repostBlock, String.append_empty,
          String.append_assoc]

theorem buildPayload_no_images (ah : String) (e : NormalizedPost)
    (h : e.embedImages = none ∨ e.embedImages = some []) :
    (buildPayload ah e).uri = e.userUrl ∧ (buildPayload ah e).secondaryURI = none := by
  rcases h with h | h <;>
    by_cases hrec : e.embedRecords.isEmpty <;>
      simp [buildPayload, h, hrec]

theorem jsMapThrow_abort {α β ε : Type} (f : α → Except ε β) (item : α) (e : ε)
    (hi : f item = .error e) :
    ∀ (pre rest : List α), (∀ x ∈ pre, ∃ y, f x = .ok y) →
      jsMapThrow f (pre ++ item :: rest) = .error e := by
  intro pre
  induction pre with
  | nil =>
    intro rest _
    show jsMapThrow f (item :: rest) = .error e
    simp [jsMapThrow, hi]
  | cons x xs ih =>
    intro rest hok
    obtain ⟨y, hy⟩ := hok x (List.mem_cons_self x xs)
    show jsMapThrow f (x :: (xs ++ item :: rest)) = .error e
    simp [jsMapThrow, hy, ih rest (fun z hz => hok z (List.mem_cons_of_mem x hz)),
      Except.map]

/-! ### Claim theorems -/

/-- C1: for a post processed in a poll cycle (URI not yet seen, thread
enrichment yielding payload `p`), the URI is added to the seen-set iff
the delivery returned 204, and the `sadd` event follows the `deliver`
event in the trace; on a non-204 status the seen-set is unchanged and
the cycle continues with the remaining posts. -/
theorem delivery_gates_seen_add (o : Oracles) (ah : String) (md : Nat)
    (st : CycleSt) (e : NormalizedPost) (p : HLTEPostPayload)
    (h1 : e.uri ∉ st.seen)
    (h2 : enrichThread o md (buildPayload ah e) e = .ok p) :
    (o.respond p = 204 →
      processEntry o ah false md st e =
        .ok ⟨e.uri :: st.seen,
          st.events ++ threadEvents e md ++ [Ev.deliver e.uri 204, Ev.sadd e.uri]⟩) ∧
    (o.respond p ≠ 204 →
      ∀ rest, pollCycle o ah false md st (e :: rest) =
        pollCycle o ah false md
          ⟨st.seen, st.events ++ threadEvents e md ++ [Ev.deliver e.uri (o.respond p)]⟩
          rest) := by
  constructor
  · intro h204
    rw [processEntry_new o ah md st e p h1 h2, if_pos h204, h204]
  · intro hne rest
    rw [pollCycle_cons, processEntry_new o ah md st e p h1 h2, if_neg hne]

/-- Witness for C1 at a concrete post, seen-set and oracle: a 204
delivery adds the URI, with the add event after the delivery event. -/
theorem delivery_gates_seen_add_witness :
    processEntry oW "watcher" false 100 ⟨[], []⟩ nY =
      .ok ⟨[nY.uri], [Ev.deliver nY.uri 204, Ev.sadd nY.uri]⟩ := by
  have h := (delivery_gates_seen_add oW "watcher" 100 ⟨[], []⟩ nY
    (buildPayload "watcher" nY) (by simp) rfl).1 rfl
  simpa [threadEvents, nY] using h

/-- C2: a post whose URI is already in the seen-set is skipped with no
delivery call, no thread fetch and no other side effect: the loop body
returns the state (seen-set and event trace) unchanged. -/
theorem seen_member_is_skipped (o : Oracles) (ah : String) (noProc : Bool) (md : Nat)
    (st : CycleSt) (e : NormalizedPost) (h : e.uri ∈ st.seen) :
    processEntry o ah noProc md st e = .ok st :=
  processEntry_seen o ah noProc md st e h

/-- Witness for C2: a concrete already-seen post is skipped. -/
theorem seen_member_is_skipped_witness :
    processEntry oW "watcher" false 100 ⟨[nY.uri], []⟩ nY = .ok ⟨[nY.uri], []⟩ :=
  seen_member_is_skipped oW "watcher" false 100 ⟨[nY.uri], []⟩ nY (by simp)

/-- C3: when the same post `Y` occurs twice in the feed window of a cycle
and its delivery succeeds (status 204), the completed cycle records
exactly one seen-set add and at most one delivery for `Y`. -/
theorem second_occurrence_deduped (o : Oracles) (ah : String) (md : Nat)
    (pre mid tail : List NormalizedPost) (Y : NormalizedPost)
    (seen0 : List String) (stF : CycleSt) (pY : HLTEPostPayload)
    (hpre : ∀ e ∈ pre, e.uri ≠ Y.uri)
    (hseen : Y.uri ∉ seen0)
    (henr : enrichThread o md (buildPayload ah Y) Y = .ok pY)
    (hresp : o.respond pY = 204)
    (hcycle : pollCycle o ah false md ⟨seen0, []⟩ (pre ++ Y :: (mid ++ Y :: tail)) = .ok stF) :
    saddCount Y.uri stF.events = 1 ∧ deliverCount Y.uri stF.events ≤ 1 := by
  rw [pollCycle_append] at hcycle
  rcases h1 : pollCycle o ah false md ⟨seen0, []⟩ pre with msg | st1
  · rw [h1] at hcycle; cases hcycle
  · rw [h1] at hcycle
    have hav := pollCycle_avoid o ah false md Y.uri pre ⟨seen0, []⟩ st1 hpre h1
    have hnotin : Y.uri ∉ st1.seen := fun h => hseen (hav.1.mp h)
    have hcycle2 : pollCycle o ah false md st1 (Y :: (mid ++ Y :: tail)) = .ok stF := hcycle
    rw [pollCycle_cons, processEntry_new o ah md st1 Y pY hnotin henr, if_pos hresp,
      hresp] at hcycle2
    set st2 : CycleSt := ⟨Y.uri :: st1.seen,
      st1.events ++ threadEvents Y md ++ [Ev.deliver Y.uri 204, Ev.sadd Y.uri]⟩ with hst2
    have hin2 : Y.uri ∈ st2.seen := by rw [hst2]; exact List.mem_cons_self _ _
    have hfr := pollCycle_frozen o ah false md Y.uri (mid ++ Y :: tail) st2 stF hin2 hcycle2
    have hs0 : saddCount Y.uri st1.events = 0 := by
      have h := hav.2.1
      simpa [saddCount] using h
    have hd0 : deliverCount Y.uri st1.events = 0 := by
      have h := hav.2.2
      simpa [deliverCount] using h
    have hsadd2 : saddCount Y.uri st2.events = 1 := by
      rw [hst2]
      simp only [saddCount_append, saddCount_threadEvents]
      have h : saddCount Y.uri [Ev.deliver Y.uri 204, Ev.sadd Y.uri] = 1 := by
        simp [saddCount]
      omega
    have hdel2 : deliverCount Y.uri st2.events = 1 := by
      rw [hst2]
      simp only [deliverCount_append, deliverCount_threadEvents]
      have h : deliverCount Y.uri [Ev.deliver Y.uri 204, Ev.sadd Y.uri] = 1 := by
        simp [deliverCount]
      omega
    constructor
    · rw [hfr.2.1, hsadd2]
    · rw [hfr.2.2, hdel2]

/-- Witness for C3: a concrete window `[Y, Y]` with a succeeding
delivery yields one add and one delivery in the final trace. -/
theorem second_occurrence_deduped_witness :
    saddCount nY.uri [Ev.deliver nY.uri 204, Ev.sadd nY.uri] = 1 ∧
      deliverCount nY.uri [Ev.deliver nY.uri 204, Ev.sadd nY.uri] ≤ 1 :=
  second_occurrence_deduped oW "watcher" 100 [] [] [] nY []
    ⟨[nY.uri], [Ev.deliver nY.uri 204, Ev.sadd nY.uri]⟩ (buildPayload "watcher" nY)
    (by simp) (by simp) rfl rfl rfl

/-- C6: when the normalizer extracted a non-empty image list, the
payload promotes the first image to the primary `uri`, moves the
human-facing post URL to `secondaryURI`, and appends the truthy
caption and every remaining image URL to the payload context; with no
images the post URL stays primary and `secondaryURI` is absent. -/
theorem images_promote_to_primary (ah : String) (e : NormalizedPost) :
    (∀ img rest, e.embedImages = some (img :: rest) →
      (buildPayload ah e).uri = img ∧
      (buildPayload ah e).secondaryURI = some e.userUrl ∧
      (strTruthy e.embedText = true →
        containsStr (jsToString (annotOf (buildPayload ah e))) (jsToString e.embedText)) ∧
      (∀ r ∈ rest, containsStr (jsToString (annotOf (buildPayload ah e))) r)) ∧
    ((e.embedImages = none ∨ e.embedImages = some []) →
      (buildPayload ah e).uri = e.userUrl ∧ (buildPayload ah e).secondaryURI = none) := by
  constructor
  · intro img rest h
    rw [buildPayload_images_eq ah e img rest h]
    refine ⟨rfl, rfl, ?_, ?_⟩
    · intro ht
      show containsStr
        (baseStr ah e ++ capBlock e ++ restBlock rest ++ repostBlock e)
        (jsToString e.embedText)
      have hcap : containsStr (capBlock e) (jsToString e.embedText) := by
        rw [capBlock, if_pos ht]
        exact containsStr_here _ _ _
      exact containsStr_append_right _
        (containsStr_append_right _ (containsStr_append_left _ hcap))
    · intro r hr
      show containsStr
        (baseStr ah e ++ capBlock e ++ restBlock rest ++ repostBlock e) r
      have hrB : containsStr (restBlock rest) r := by
        cases rest with
        | nil => cases hr
        | cons a as =>
          have heq : restBlock (a :: as) =
              "\n** Remaining image embeds:\n" ++ joinSep "\n" (a :: as) ++ "\n" := by
            simp [restBlock]
          rw [heq]
          exact containsStr_append_right _
            (containsStr_append_left _ (joinSep_contains _ _ _ hr))
      exact containsStr_append_right _ (containsStr_append_left _ hrB)
  · exact buildPayload_no_images ah e

/-- Witness for C6 at a concrete two-image post. -/
theorem images_promote_to_primary_witness :
    nImg.embedImages = some ("a.jpg" :: ["b.jpg"]) ∧
    (buildPayload "watcher" nImg).uri = "a.jpg" ∧
    (buildPayload "watcher" nImg).secondaryURI = some nImg.userUrl ∧
    containsStr (jsToString (annotOf (buildPayload "watcher" nImg))) "b.jpg" := by
  have h := (images_promote_to_primary "watcher" nImg).1 "a.jpg" ["b.jpg"] rfl
  exact ⟨rfl, h.1, h.2.1, h.2.2.2 "b.jpg" (by simp)⟩

/-- C7: for the plain text post "hello" by author handle alice and
display name Alice (no embeds), the payload data is exactly
"hello\n\n-- @alice / Alice" and `secondaryURI` is absent. -/
theorem plain_post_payload_shape :
    (transformSingle rawAlice).map
      (fun n => ((buildPayload "watcher" n).data, (buildPayload "watcher" n).secondaryURI)) =
      .ok ("hello\n\n-- @alice / Alice", none) := rfl

/-- C8: a feed item whose at:// URI collection segment is not
`app.bsky.feed.post` makes `transformSingle` fail with an error naming
the unsupported kind, and since `transformFeed` maps `transformSingle`
over every item with a throwing callback, the whole feed
transformation (hence the cycle) aborts on such an item. -/
theorem unsupported_kind_aborts_cycle (item : RawItem)
    (h : (jsSplit (item.post.uri.drop 5) (Char.ofNat 0x2f))[1]? ≠
      some "app.bsky.feed.post") :
    transformSingle item = .error ("Unknown post type \"" ++
      jsToString (jsSplit (item.post.uri.drop 5) (Char.ofNat 0x2f))[1]? ++
      "\" for " ++ item.post.uri) ∧
    ∀ (pre rest : List RawItem), (∀ x ∈ pre, ∃ y, transformSingle x = .ok y) →
      transformFeed (pre ++ item :: rest) = .error ("Unknown post type \"" ++
        jsToString (jsSplit (item.post.uri.drop 5) (Char.ofNat 0x2f))[1]? ++
        "\" for " ++ item.post.uri) := by
  have h1 : transformSingle item = .error ("Unknown post type \"" ++
      jsToString (jsSplit (item.post.uri.drop 5) (Char.ofNat 0x2f))[1]? ++
      "\" for " ++ item.post.uri) := by
    simp only [transformSingle]
    rw [if_pos h]
  exact ⟨h1, fun pre rest hok => jsMapThrow_abort transformSingle item _ h1 pre rest hok⟩

/-- Witness for C8: a follow-record URI in the middle of the feed
aborts the whole `transformFeed`. -/
theorem unsupported_kind_aborts_cycle_witness :
    transformFeed [rawAlice, rawBadKind, rawAlice] =
      .error "Unknown post type \"app.bsky.graph.follow\" for at://did:plc:alice/app.bsky.graph.follow/f1" := by
  have h := (unsupported_kind_aborts_cycle rawBadKind (by decide)).2 [rawAlice] [rawAlice]
    (by
      intro x hx
      simp only [List.mem_singleton] at hx
      subst hx
      exact ⟨_, rfl⟩)
  exact h

/-- C9: on the `images` / `images#view` branch the normalizer collects
the `fullsize` URL of every image in source order into `embedImages`
and builds a caption joining the image alt texts in that order. -/
theorem images_collected_in_order (item : RawItem) (em : REmbed) (imgs : List EmbedImage)
    (h0 : (jsSplit (item.post.uri.drop 5) (Char.ofNat 0x2f))[1]? =
      some "app.bsky.feed.post")
    (hNF : notFoundish item.post = false)
    (hrec : item.post.record.embed.map (fun r => r.type) = some "app.bsky.embed.images")
    (hem : item.post.embed = some em)
    (hty : em.type = "app.bsky.embed.images#view")
    (himgs : em.images = some imgs) :
    (transformSingle item).map (fun n => (n.embedImages, n.embedText)) =
      .ok (some (imgs.map (fun i => i.fullsize)),
        some (jsToString em.text ++ "\nAlt texts: \"" ++
          joinSep "\", \"" (imgs.map (fun i => i.alt)))) := by
  simp only [transformSingle]
  rw [if_neg (by simp [h0])]
  simp [hNF, hrec, hem, hty, himgs, branchImages, branchRWM, branchQuote,
    branchExternal, branchVideo, Except.bind, Except.map]

/-- Witness for C9: two images `[a.jpg, b.jpg]` with alts cat/dog
yield `embedImages = [a.jpg, b.jpg]` and a caption containing cat then
dog (the alt-join of the source, including its absent closing quote
and the `undefined` rendering of the absent `embed.text`). -/
theorem images_collected_in_order_witness :
    (transformSingle rawImages).map (fun n => (n.embedImages, n.embedText)) =
      .ok (some ["a.jpg", "b.jpg"], some "undefined\nAlt texts: \"cat\", \"dog") :=
  images_collected_in_order rawImages
    { type := "app.bsky.embed.images#view", record := none,
      images := some [⟨"a.jpg", "cat"⟩, ⟨"b.jpg", "dog"⟩], text := none,
      media := none, external := none, thumbnail := "" }
    [⟨"a.jpg", "cat"⟩, ⟨"b.jpg", "dog"⟩]
    rfl rfl rfl rfl rfl rfl

/-- C10: in the quote-post branch, when none of the three author
nesting positions (`embed.record.author`, `embed.record.record.author`,
`embed.record.creator`) is populated, `transformSingle` fails with the
destructuring `TypeError` of index.ts line 104 instead of producing a
normalized post. -/
theorem quote_requires_author_position (item : RawItem) (em : REmbed) (qr : QuoteRecord)
    (h0 : (jsSplit (item.post.uri.drop 5) (Char.ofNat 0x2f))[1]? =
      some "app.bsky.feed.post")
    (hNF : notFoundish item.post = false)
    (hem : item.post.embed = some em)
    (hpair : (item.post.record.embed.map (fun r => r.type) = some "app.bsky.embed.record" ∧
        em.type = "app.bsky.embed.record#view") ∨
      (item.post.record.embed.map (fun r => r.type) = some "app.bsky.embed.recordWithMedia" ∧
        em.type = "app.bsky.embed.recordWithMedia#view"))
    (hmedia : ∀ s, ∃ s2,
      branchRWM item.post (item.post.record.embed.map (fun r => r.type)) s = .ok s2)
    (hqr : em.record = some qr)
    (ha : qr.author = none) (hb : qr.record.bind (fun r => r.author) = none)
    (hc : qr.creator = none) :
    transformSingle item = .error destructureErrMsg := by
  obtain ⟨s2, hs2⟩ := hmedia ⟨some [], none, []⟩
  rcases hpair with ⟨hrec, hty⟩ | ⟨hrec, hty⟩ <;>
  · have hBI : branchImages item.post (item.post.record.embed.map (fun r => r.type))
        ⟨some [], none, []⟩ = .ok ⟨some [], none, []⟩ := by
      simp [branchImages, hrec]
    have hBQ : branchQuote item.post (item.post.record.embed.map (fun r => r.type)) s2 =
        .error destructureErrMsg := by
      simp [branchQuote, hrec, hem, hty, hqr, ha, hb, hc, Except.bind]
    simp only [transformSingle]
    rw [if_neg (by simp [h0])]
    simp [hNF, hBI, hs2, hBQ, Except.bind, Except.map]

/-- Witness for C10: a concrete record/record#view quote post with all
three author positions absent crashes normalization. -/
theorem quote_requires_author_position_witness :
    transformSingle rawQuoteCrash = .error destructureErrMsg :=
  quote_requires_author_position rawQuoteCrash
    { type := "app.bsky.embed.record#view",
      record := some { notFound := none, author := none, record := none,
                       creator := none, value := none, embeds := none },
      images := none, text := none, media := none, external := none, thumbnail := "" }
    { notFound := none, author := none, record := none, creator := none,
      value := none, embeds := none }
    rfl rfl rfl (Or.inl ⟨rfl, rfl⟩) (fun s => ⟨s, rfl⟩) rfl rfl rfl rfl

/-- C4 (code evaluation at the failing input): on the example of the spec, a
reply tree — root-author replies at T3, T1, T2 in tree order with a
third-party reply at T1.5, shaped as the thread API returns it (author
dids at `post.author`, no node-level `author` field) — the extractor
returns the empty list, not the three self-thread records `[t1, t2,
t3]`: the filter at index.ts line 140 compares the absent node-level
`author.did` with the defined root `post.author.did` and never
matches. -/
theorem replies_filter_never_matches :
    processThread ⟨rootNode⟩ = .ok [] ∧
      (Except.ok ([] : List ThreadRecord) : Except String (List ThreadRecord)) ≠
        .ok [recA1, recA2, recA3] := by
  constructor
  · show repliesFromAuthor rootNode = .ok []
    rw [rootNode]
    apply repliesFromAuthor_no_toplevel_author didA
    · rfl
    · intro n hn
      simp only [nodeA3, nodeB, nodeA1, nodeA2, List.mem_cons, List.not_mem_nil,
        or_false] at hn
      rcases hn with h | h | h | h <;> (subst h; rfl)
  · intro h
    have h2 : ([] : List ThreadRecord) = [recA1, recA2, recA3] := by
      injection h
    cases h2

/-- C5 counterexample: on a response sequence of pages sized 100, 100,
42 followed by the empty page, the pagination loop accumulates 242
items but issues four requests — the 42-item page does not stop the
loop, only the empty fourth page does, so "stops after the 42-item
page without issuing a fourth request" is false. -/
theorem short_page_needs_fourth_request :
    (fetchAllLikes demoPages).map (fun pr => (pr.1.length, pr.2.length)) =
      some (242, 4) ∧
    ((fetchAllLikes demoPages).map (fun pr => pr.2.length) = some 3 → False) := by
  constructor
  · rfl
  · intro h
    rw [show (fetchAllLikes demoPages).map (fun pr => pr.2.length) = some 4 from rfl] at h
    cases h

/-- C5 amended: the loop accumulates the items of every page before
the first empty page (requesting each with limit 100) and stops at the
first empty page, having issued one request per non-empty page plus
the final request answered by the empty page; for pages sized 100,
100, 42 this is 242 items and four requests. -/
theorem fetch_stops_at_first_empty_page (c : Option String) (ps : List FeedPage)
    (pe : FeedPage) (rest : List FeedPage)
    (h1 : ∀ p ∈ ps, p.feed ≠ []) (h2 : pe.feed = []) :
    ∃ reqs, fetchGo c (ps ++ pe :: rest) = some ((ps.map (·.feed)).flatten, reqs) ∧
      reqs.length = ps.length + 1 ∧ ∀ r ∈ reqs, r.limit = 100 := by
  induction ps generalizing c with
  | nil =>
    refine ⟨[⟨100, c⟩], ?_, rfl, ?_⟩
    · simp [fetchGo_cons, h2]
    · intro r hr
      simp at hr
      rw [hr]
  | cons p ps ih =>
    have hp : p.feed.isEmpty = false := by
      simp [List.isEmpty_iff]
      exact h1 p (List.mem_cons_self p ps)
    obtain ⟨reqs, hgo, hlen, hlim⟩ := ih p.cursor (fun q hq => h1 q (List.mem_cons_of_mem p hq))
    refine ⟨⟨100, c⟩ :: reqs, ?_, by simp [hlen], ?_⟩
    · rw [List.cons_append, fetchGo_cons, hp, hgo]
      simp
    · intro r hr
      rcases List.mem_cons.mp hr with h | h
      · rw [h]
      · exact hlim r h

/-- Witness for the amended C5 at the concrete 100/100/42/empty
response sequence. -/
theorem fetch_stops_at_first_empty_page_witness :
    ∃ reqs, fetchGo none
        ([⟨List.replicate 100 rawAlice, some "c1"⟩,
          ⟨List.replicate 100 rawAlice, some "c2"⟩,
          ⟨List.replicate 42 rawAlice, some "c3"⟩] ++ [(⟨[], none⟩ : FeedPage)]) =
        some (([⟨List.replicate 100 rawAlice, some "c1"⟩,
          ⟨List.replicate 100 rawAlice, some "c2"⟩,
          ⟨List.replicate 42 rawAlice, some "c3"⟩].map (fun p => FeedPage.feed p)).flatten, reqs) ∧
      reqs.length = 3 + 1 ∧ ∀ r ∈ reqs, r.limit = 100 := by
  have h := fetch_stops_at_first_empty_page none
    [⟨List.replicate 100 rawAlice, some "c1"⟩,
     ⟨List.replicate 100 rawAlice, some "c2"⟩,
     ⟨List.replicate 42 rawAlice, some "c3"⟩] ⟨[], none⟩ []
    (by
      intro p hp
      simp only [List.mem_cons, List.not_mem_nil, or_false] at hp
      rcases hp with h | h | h <;> (rw [h]; simp))
    rfl
  simpa using h

end BlueskyLikes
